import Mathlib

/-!
Shallow embedding of the collaborative-session coordinator of the Blueforge
repository: `backend/src/services/SocketService.ts` together with the TTL
key-value cache of `backend/src/services/RedisService.ts` (`setCache`,
`getCache`, `deleteCache`).

Sockets carry the mutable fields `userId`/`projectId` (both `undefined`
until the `authenticate` event), socket.io rooms are membership lists keyed
by project id, `connectedUsers` is the insertion-ordered key set of the
service's `Map<string, UserSocket>`, and the Redis cache is an association
list from key to value plus the write time and TTL (a read at time `t` of an
entry written at `w` with TTL `ttl` succeeds exactly when `t < w + ttl`).

Each socket.io handler of `SocketService` is translated as a function from
server state and event payload to the new server state and the list of
emissions; an emission's target is `socket.to(room).emit` (room excluding
sender), `io.to(room).emit` (whole room) or `socket.emit` (the one socket).
Time (`Date.now()` / `new Date().toISOString()`) and the random token used
in chat-message ids enter as explicit oracle inputs of every step.
-/

namespace Blueforge

/-- JavaScript truthiness of a `string | undefined` field: `undefined` and
the empty string are falsy, every other string is truthy. -/
def truthy : Option String → Bool
  | none => false
  | some s => !(s == "")

/-- The `line`/`column` cursor payload or the collaboration-session object
stored in the Redis cache by `SocketService`. -/
inductive StoreValue where
  | cursorVal (line column : Int)
  | sessionVal (socketId : String) (lastSeen : Nat) (isActive : Bool)
deriving DecidableEq, Repr

/-- One Redis entry: the value together with the write time and the TTL in
seconds passed to `setEx`. -/
structure StoreEntry where
  value : StoreValue
  writtenAt : Nat
  ttl : Nat
deriving DecidableEq, Repr

/-- Association-list lookup by key (JavaScript `Map.get` / Redis `get`). -/
def alGet {α : Type} (l : List (String × α)) (k : String) : Option α :=
  (l.find? (fun kv => kv.1 == k)).map (fun kv => kv.2)

/-- Association-list update (JavaScript `Map.set` / Redis `setEx`): an
existing key keeps its position and gets the new value, a new key is
appended. -/
def alSet {α : Type} : List (String × α) → String → α → List (String × α)
  | [], k, v => [(k, v)]
  | kv :: t, k, v => if kv.1 == k then (k, v) :: t else kv :: alSet t k v

/-- Association-list deletion (JavaScript `Map.delete` / Redis `del`). -/
def alDelete {α : Type} (l : List (String × α)) (k : String) : List (String × α) :=
  l.filter (fun kv => !(kv.1 == k))

/-- The Redis cache contents. -/
def Store : Type := List (String × StoreEntry)

/-- `RedisService.setCache(key, data, ttl)` at time `now`: writes under the
`cache:`-prefixed key with `setEx`. -/
def setCache (store : Store) (key : String) (v : StoreValue) (ttl now : Nat) : Store :=
  alSet store ("cache:" ++ key) ⟨v, now, ttl⟩

/-- `RedisService.getCache(key)` read at time `now`: the value if the entry
exists and its TTL has not yet elapsed, otherwise `null` (expiry is the
store's responsibility, per `setEx` semantics). -/
def getCache (store : Store) (key : String) (now : Nat) : Option StoreValue :=
  match alGet store ("cache:" ++ key) with
  | some e => if now < e.writtenAt + e.ttl then some e.value else none
  | none => none

/-- `RedisService.deleteCache(key)`. -/
def deleteCache (store : Store) (key : String) : Store :=
  alDelete store ("cache:" ++ key)

/-- The mutable identity fields a `UserSocket` carries
(`userId?: string; projectId?: string`). -/
structure SockState where
  userId : Option String := none
  projectId : Option String := none
deriving DecidableEq, Repr

/-- The whole server state: per-socket identity fields, socket.io room
membership lists, the key set of the `connectedUsers` map (in insertion
order), and the Redis cache. -/
structure ServerState where
  sockets : List (String × SockState)
  rooms : List (String × List String)
  connectedUsers : List String
  store : List (String × StoreEntry)
deriving DecidableEq, Repr

/-- The state before any event: no sockets authenticated, no rooms, empty
`connectedUsers` map, empty cache. -/
def initState : ServerState := ⟨[], [], [], []⟩

/-- Identity fields of socket `sid` (a socket that never authenticated has
both fields `undefined`). -/
def getSock (st : ServerState) (sid : String) : SockState :=
  (alGet st.sockets sid).getD {}

/-- Overwrite the identity fields of socket `sid`. -/
def setSock (st : ServerState) (sid : String) (s : SockState) : ServerState :=
  { st with sockets := alSet st.sockets sid s }

/-- Current member list of a socket.io room (a room that nobody joined is
the empty list). -/
def roomMembers (st : ServerState) (r : String) : List String :=
  (alGet st.rooms r).getD []

/-- `socket.join(room)`: adds the socket to the room's member set (a set:
joining twice is a no-op). -/
def joinRoom (st : ServerState) (r sid : String) : ServerState :=
  let ms := roomMembers st r
  if sid ∈ ms then st else { st with rooms := alSet st.rooms r (ms ++ [sid]) }

/-- `connectedUsers.set(socket.id, socket)`: the map keys are socket ids;
re-setting an existing key keeps its insertion position. -/
def cuSet (st : ServerState) (sid : String) : ServerState :=
  if sid ∈ st.connectedUsers then st
  else { st with connectedUsers := st.connectedUsers ++ [sid] }

/-- `connectedUsers.delete(socket.id)`. -/
def cuDelete (st : ServerState) (sid : String) : ServerState :=
  { st with connectedUsers := st.connectedUsers.filter (fun x => !(x == sid)) }

/-- Payload of the `authenticate` event
(`data: { userId: string, projectId: string }`). -/
structure AuthData where
  userId : String
  projectId : String
deriving DecidableEq, Repr

/-- Inbound events handled by `SocketService.initialize`'s listeners, plus
the public `sendToProject` entry point. An `authenticate none` is a
malformed payload whose field access throws inside the handler's `try`. -/
inductive Event where
  | authenticate (data : Option AuthData)
  | cursorUpdate (line column : Int)
  | fileChange (fileId content changes : String)
  | chatMessage (message : String) (msgType : Option String)
  | typingStart
  | typingStop
  | disconnect
  | sendToProject (projectId eventName : String)
deriving DecidableEq, Repr

/-- Payloads the service emits. Timestamps are the oracle time of the step
(the `new Date().toISOString()` / `Date.now()` instant). -/
inductive Payload where
  | userJoined (userId socketId : String) (timestamp : Nat)
  | cursorPos (userId : String) (line column : Int) (timestamp : Nat)
  | fileChanged (fileId content changes userId : String) (timestamp : Nat)
  | chatMsg (id userId projectId content msgType : String) (timestamp : Nat)
  | typing (userId : String) (timestamp : Nat)
  | userLeft (userId socketId : String) (timestamp : Nat)
  | authError (message : String)
  | raw (data : String)
deriving DecidableEq, Repr

/-- A broadcast target: `socket.to(room).emit` (room minus the sender),
`io.to(room).emit` (the whole room), or `socket.emit` (one socket). -/
inductive Target where
  | roomExcept (roomId senderId : String)
  | room (roomId : String)
  | sock (socketId : String)
deriving DecidableEq, Repr

/-- One `emit` call: event name, target and payload. -/
structure Emission where
  event : String
  target : Target
  payload : Payload
deriving DecidableEq, Repr

/-- Drop the sender from a member list (socket.io's `socket.to(room)`
exclusion). -/
def exceptSelf (l : List String) (sid : String) : List String :=
  l.filter (fun x => !(x == sid))

/-- The sockets an emission's target resolves to in a given state. -/
def recipients (st : ServerState) : Target → List String
  | Target.roomExcept r s => exceptSelf (roomMembers st r) s
  | Target.room r => roomMembers st r
  | Target.sock s => [s]

/-- JavaScript `data.type || 'user'`: `undefined` and the empty string fall
back to `'user'`. -/
def jsOrUser : Option String → String
  | none => "user"
  | some t => if t == "" then "user" else t

/-- Digit character of a decimal digit (`0 ↦ '0', …, 9 ↦ '9'`). -/
def digitChar : Nat → Char
  | 0 => '0' | 1 => '1' | 2 => '2' | 3 => '3' | 4 => '4'
  | 5 => '5' | 6 => '6' | 7 => '7' | 8 => '8' | 9 => '9'
  | _ => '?'

/-- Little-endian decimal digits, driven by a structural fuel argument so
that the definition reduces inside the kernel; the fuel never runs out when
it starts at the number itself. -/
def natDigitsAux : Nat → Nat → List Nat
  | 0, _ => []
  | _ + 1, 0 => []
  | fuel + 1, n + 1 => ((n + 1) % 10) :: natDigitsAux fuel ((n + 1) / 10)

/-- Little-endian decimal digits of a natural number (empty for zero). -/
def natDigits (n : Nat) : List Nat := natDigitsAux n n

/-- Decimal rendering of a natural number, as JavaScript template
interpolation `${Date.now()}` renders it. -/
def natDecimal (n : Nat) : String :=
  if n = 0 then "0" else String.mk ((natDigits n).reverse.map digitChar)

/-- The server-generated chat-message id
`msg_${Date.now()}_${Math.random().toString(36).substr(2, 9)}`: decimal
millisecond timestamp and random token joined by underscores. -/
def messageId (now : Nat) (rand : String) : String :=
  "msg_" ++ natDecimal now ++ "_" ++ rand

/-- `updateCollaborationSession(userId, projectId, socketId)`: writes the
session marker under `collaboration:userId:projectId` with a 3600-second
TTL (its internal try/catch swallows store errors). -/
def updateCollaborationSession (store : Store) (userId projectId socketId : String)
    (now : Nat) : Store :=
  setCache store ("collaboration:" ++ userId ++ ":" ++ projectId)
    (StoreValue.sessionVal socketId now true) 3600 now

/-- `removeCollaborationSession(userId, projectId)`: deletes the session
marker. -/
def removeCollaborationSession (store : Store) (userId projectId : String) : Store :=
  deleteCache store ("collaboration:" ++ userId ++ ":" ++ projectId)

/-- The `authenticate` listener. A well-formed payload sets the socket's
identity fields, joins the project room, registers the socket in
`connectedUsers`, writes the collaboration-session marker and emits
`user_joined` to the rest of the room. A malformed payload throws on field
access before any mutation; the `catch` emits `auth_error` to the offending
socket only. -/
def onAuthenticate (st : ServerState) (sid : String) (data : Option AuthData)
    (now : Nat) : ServerState × List Emission :=
  match data with
  | none =>
    (st, [⟨"auth_error", Target.sock sid, Payload.authError "Authentication failed"⟩])
  | some d =>
    let st1 := setSock st sid ⟨some d.userId, some d.projectId⟩
    let st2 := joinRoom st1 d.projectId sid
    let st3 := cuSet st2 sid
    let st4 := { st3 with
      store := updateCollaborationSession st3.store d.userId d.projectId sid now }
    (st4, [⟨"user_joined", Target.roomExcept d.projectId sid,
            Payload.userJoined d.userId sid now⟩])

/-- The `cursor_update` listener: guarded by
`if (socket.userId && socket.projectId)`; writes the cursor position under
`cursor:userId:projectId` with a 60-second TTL and broadcasts to the rest
of the room. -/
def onCursorUpdate (st : ServerState) (sid : String) (line column : Int)
    (now : Nat) : ServerState × List Emission :=
  let s := getSock st sid
  if truthy s.userId && truthy s.projectId then
    let u := s.userId.getD ""
    let p := s.projectId.getD ""
    let st1 := { st with
      store := setCache st.store ("cursor:" ++ u ++ ":" ++ p)
        (StoreValue.cursorVal line column) 60 now }
    (st1, [⟨"cursor_update", Target.roomExcept p sid,
            Payload.cursorPos u line column now⟩])
  else (st, [])

/-- The `file_change` listener: stateless relay to the rest of the room,
same authentication guard. -/
def onFileChange (st : ServerState) (sid : String) (fileId content changes : String)
    (now : Nat) : ServerState × List Emission :=
  let s := getSock st sid
  if truthy s.userId && truthy s.projectId then
    let u := s.userId.getD ""
    let p := s.projectId.getD ""
    (st, [⟨"file_change", Target.roomExcept p sid,
           Payload.fileChanged fileId content changes u now⟩])
  else (st, [])

/-- The `chat_message` listener: same guard; builds `messageData` with the
server-generated id and broadcasts via `io.to(projectId)` — the whole room,
sender included. No state-store write. -/
def onChatMessage (st : ServerState) (sid : String) (message : String)
    (msgType : Option String) (now : Nat) (rand : String) :
    ServerState × List Emission :=
  let s := getSock st sid
  if truthy s.userId && truthy s.projectId then
    let u := s.userId.getD ""
    let p := s.projectId.getD ""
    (st, [⟨"chat_message", Target.room p,
           Payload.chatMsg (messageId now rand) u p message (jsOrUser msgType) now⟩])
  else (st, [])

/-- The `typing_start` listener. -/
def onTypingStart (st : ServerState) (sid : String) (now : Nat) :
    ServerState × List Emission :=
  let s := getSock st sid
  if truthy s.userId && truthy s.projectId then
    (st, [⟨"typing_start", Target.roomExcept (s.projectId.getD "") sid,
           Payload.typing (s.userId.getD "") now⟩])
  else (st, [])

/-- The `typing_stop` listener. -/
def onTypingStop (st : ServerState) (sid : String) (now : Nat) :
    ServerState × List Emission :=
  let s := getSock st sid
  if truthy s.userId && truthy s.projectId then
    (st, [⟨"typing_stop", Target.roomExcept (s.projectId.getD "") sid,
           Payload.typing (s.userId.getD "") now⟩])
  else (st, [])

/-- The `disconnect` listener: for an authenticated socket it deletes the
collaboration-session marker and emits `user_left` to the rest of the
room; in every case it removes the socket from `connectedUsers`. -/
def onDisconnect (st : ServerState) (sid : String) (now : Nat) :
    ServerState × List Emission :=
  let s := getSock st sid
  let stAndEms :=
    if truthy s.userId && truthy s.projectId then
      let u := s.userId.getD ""
      let p := s.projectId.getD ""
      ({ st with store := removeCollaborationSession st.store u p },
       [⟨"user_left", Target.roomExcept p sid, Payload.userLeft u sid now⟩])
    else (st, ([] : List Emission))
  (cuDelete stAndEms.1 sid, stAndEms.2)

/-- Dispatch an inbound event to its listener (`sendToProject` is the
service's public broadcast entry point, `io.to(projectId).emit`). -/
def handleEvent (st : ServerState) (sid : String) :
    Event → Nat → String → ServerState × List Emission
  | Event.authenticate data, now, _ => onAuthenticate st sid data now
  | Event.cursorUpdate l c, now, _ => onCursorUpdate st sid l c now
  | Event.fileChange f g h, now, _ => onFileChange st sid f g h now
  | Event.chatMessage m ty, now, rand => onChatMessage st sid m ty now rand
  | Event.typingStart, now, _ => onTypingStart st sid now
  | Event.typingStop, now, _ => onTypingStop st sid now
  | Event.disconnect, now, _ => onDisconnect st sid now
  | Event.sendToProject p ev, _, _ =>
    (st, [⟨ev, Target.room p, Payload.raw ev⟩])

/-- One delivered message: receiving socket, event name, the target the
emission was addressed to, and the payload. -/
structure Delivery where
  rcpt : String
  event : String
  target : Target
  payload : Payload
deriving DecidableEq, Repr

/-- Resolve an emission against the post-handler state into per-recipient
deliveries. -/
def deliver (st : ServerState) (e : Emission) : List Delivery :=
  (recipients st e.target).map (fun r => ⟨r, e.event, e.target, e.payload⟩)

/-- One inbound event together with its oracle inputs: the sending socket,
the clock reading and the random token drawn during the step. -/
structure Action where
  sid : String
  ev : Event
  now : Nat
  rand : String
deriving DecidableEq, Repr

/-- Process one action: run the handler, then resolve its emissions. -/
def step (st : ServerState) (a : Action) : ServerState × List Delivery :=
  let res := handleEvent st a.sid a.ev a.now a.rand
  (res.1, (res.2.map (deliver res.1)).flatten)

/-- Process a list of actions, accumulating all deliveries. -/
def run : ServerState → List Action → ServerState × List Delivery
  | st, [] => (st, [])
  | st, a :: as =>
    let r1 := step st a
    let r2 := run r1.1 as
    (r2.1, r1.2 ++ r2.2)

/-- The state after processing a trace from the initial state. -/
def exec (as : List Action) : ServerState := (run initState as).1

/-- First-occurrence-order deduplication, as `[...new Set(users)]` performs
it in JavaScript. -/
def jsSetDedup : List String → List String
  | [] => []
  | a :: l => a :: jsSetDedup (l.filter (fun x => !(x == a)))
termination_by l => l.length
decreasing_by
  simp only [List.length_cons]
  exact Nat.lt_succ_of_le (List.length_filter_le _ _)

/-- `SocketService.getConnectedUsers(projectId)`: walk the
`connectedUsers` map in insertion order, keep the `userId` of every socket
whose `projectId` strictly equals the argument and whose `userId` is
truthy, and de-duplicate via a JavaScript `Set`. -/
def getConnectedUsers (st : ServerState) (projectId : String) : List String :=
  let users := st.connectedUsers.filterMap (fun sid =>
    let s := getSock st sid
    if s.projectId == some projectId && truthy s.userId then s.userId else none)
  jsSetDedup users

/-- Did this action authenticate socket `sid` into room `r`? -/
def isAuthInto (sid r : String) (a : Action) : Bool :=
  a.sid == sid &&
    (match a.ev with
     | Event.authenticate (some d) => d.projectId == r
     | _ => false)

/-- Did the trace ever authenticate socket `sid` into room `r`? -/
def authedInto (as : List Action) (sid r : String) : Bool :=
  as.any (isAuthInto sid r)

/-- Can this action's handler possibly emit a `user_left` event: a
transport close, or a caller-initiated `sendToProject` broadcast that
explicitly carries the `user_left` event name? -/
def mayEmitUserLeft (a : Action) : Bool :=
  match a.ev with
  | Event.disconnect => true
  | Event.sendToProject _ evn => evn == "user_left"
  | _ => false

/-- Does the trace contain neither a transport-close event nor an explicit
caller broadcast of the `user_left` event name? -/
def noDisconnect (as : List Action) : Bool :=
  as.all (fun a => !(mayEmitUserLeft a))

/-- The room a target addresses, if any. -/
def targetRoom : Target → Option String
  | Target.roomExcept r _ => some r
  | Target.room r => some r
  | Target.sock _ => none

/-! ### Association-list and cache lemmas -/

theorem alGet_nil {α : Type} (k : String) : alGet ([] : List (String × α)) k = none := rfl

theorem alGet_cons {α : Type} (kv : String × α) (t : List (String × α)) (k : String) :
    alGet (kv :: t) k = if kv.1 = k then some kv.2 else alGet t k := by
  by_cases h : kv.1 = k
  · rw [alGet, List.find?_cons_of_pos _ (by simp [h])]
    simp [h]
  · rw [alGet, List.find?_cons_of_neg _ (by simp [h])]
    simp [h, alGet]

theorem alGet_alSet_self {α : Type} (l : List (String × α)) (k : String) (v : α) :
    alGet (alSet l k v) k = some v := by
  induction l with
  | nil => simp [alSet, alGet_cons]
  | cons kv t ih =>
    by_cases h : kv.1 = k
    · simp [alSet, h, alGet_cons]
    · simp [alSet, h, alGet_cons, ih]

theorem alGet_alSet_ne {α : Type} (l : List (String × α)) (k k' : String) (v : α)
    (h : k' ≠ k) : alGet (alSet l k v) k' = alGet l k' := by
  induction l with
  | nil => simp [alSet, alGet_cons, alGet_nil, Ne.symm h]
  | cons kv t ih =>
    by_cases hk : kv.1 = k
    · rw [alSet, if_pos (by simp [hk]), alGet_cons, alGet_cons, hk,
        if_neg (Ne.symm h), if_neg (show ¬(k = k') from Ne.symm h)]
    · rw [alSet, if_neg (by simp [hk]), alGet_cons, alGet_cons, ih]

theorem alGet_alDelete_self {α : Type} (l : List (String × α)) (k : String) :
    alGet (alDelete l k) k = none := by
  induction l with
  | nil => rfl
  | cons kv t ih =>
    by_cases h : kv.1 = k
    · rw [alDelete, List.filter_cons_of_neg (by simp [h])]
      exact ih
    · rw [alDelete, List.filter_cons_of_pos (by simp [h]), alGet_cons, if_neg h]
      exact ih

theorem getCache_setCache_self (store : Store) (key : String) (v : StoreValue)
    (ttl now t : Nat) :
    getCache (setCache store key v ttl now) key t =
      if t < now + ttl then some v else none := by
  simp [getCache, setCache, alGet_alSet_self]

theorem getCache_deleteCache_self (store : Store) (key : String) (t : Nat) :
    getCache (deleteCache store key) key t = none := by
  simp [getCache, deleteCache, alGet_alDelete_self]

/-! ### JavaScript `Set` deduplication lemmas -/

theorem mem_jsSetDedup (l : List String) (a : String) :
    a ∈ jsSetDedup l ↔ a ∈ l := by
  induction l using jsSetDedup.induct with
  | case1 => simp [jsSetDedup]
  | case2 b t ih =>
    rw [jsSetDedup]
    by_cases h : a = b
    · simp [h]
    · simp only [List.mem_cons, h, false_or, ih, List.mem_filter]
      constructor
      · exact fun hm => hm.1
      · exact fun hm => ⟨hm, by simp [h]⟩

theorem jsSetDedup_nodup (l : List String) : (jsSetDedup l).Nodup := by
  induction l using jsSetDedup.induct with
  | case1 => simp [jsSetDedup]
  | case2 b t ih =>
    rw [jsSetDedup]
    refine List.nodup_cons.mpr ⟨?_, ih⟩
    rw [mem_jsSetDedup]
    simp [List.mem_filter]

/-! ### Decimal rendering and chat-message id lemmas -/

theorem natDigitsAux_eq_digits (fuel n : Nat) (h : n ≤ fuel) :
    natDigitsAux fuel n = Nat.digits 10 n := by
  induction fuel generalizing n with
  | zero =>
    obtain rfl : n = 0 := Nat.le_zero.mp h
    simp [natDigitsAux]
  | succ fuel ih =>
    cases n with
    | zero => simp [natDigitsAux]
    | succ m =>
      have hdiv : (m + 1) / 10 ≤ fuel := by
        have := Nat.div_lt_self (Nat.succ_pos m) (by decide : 1 < 10)
        omega
      rw [natDigitsAux, ih ((m + 1) / 10) hdiv,
        Nat.digits_def' (by norm_num : (1 : ℕ) < 10) (Nat.succ_pos m)]

theorem natDigits_eq_digits (n : Nat) : natDigits n = Nat.digits 10 n :=
  natDigitsAux_eq_digits n n (Nat.le_refl n)

theorem natDigits_lt (n : Nat) : ∀ d ∈ natDigits n, d < 10 := by
  rw [natDigits_eq_digits]
  exact fun d hd => Nat.digits_lt_base (by norm_num) hd

theorem natDigits_inj (m n : Nat) (h : natDigits m = natDigits n) : m = n := by
  rw [natDigits_eq_digits, natDigits_eq_digits] at h
  have h2 := congrArg (Nat.ofDigits 10) h
  rwa [Nat.ofDigits_digits, Nat.ofDigits_digits] at h2

theorem digitChar_lt_inj (d e : Nat) (hd : d < 10) (he : e < 10)
    (h : digitChar d = digitChar e) : d = e := by
  interval_cases d <;> interval_cases e <;> revert h <;> decide

theorem digitChar_ne_underscore (d : Nat) (hd : d < 10) : digitChar d ≠ '_' := by
  interval_cases d <;> decide

theorem map_digitChar_inj : ∀ (l1 l2 : List Nat), (∀ d ∈ l1, d < 10) →
    (∀ d ∈ l2, d < 10) → l1.map digitChar = l2.map digitChar → l1 = l2
  | [], [], _, _, _ => rfl
  | [], _ :: _, _, _, h => by simp at h
  | _ :: _, [], _, _, h => by simp at h
  | a :: t1, b :: t2, h1, h2, h => by
    simp only [List.map_cons, List.cons.injEq] at h
    have hab := digitChar_lt_inj a b (h1 a (by simp)) (h2 b (by simp)) h.1
    subst hab
    rw [map_digitChar_inj t1 t2 (fun d hd => h1 d (by simp [hd]))
      (fun d hd => h2 d (by simp [hd])) h.2]

theorem natDecimal_data (n : Nat) :
    (natDecimal n).data = if n = 0 then ['0'] else (natDigits n).reverse.map digitChar := by
  unfold natDecimal
  split
  · rfl
  · rfl

theorem underscore_not_mem_natDecimal (n : Nat) : '_' ∉ (natDecimal n).data := by
  rw [natDecimal_data]
  split
  · decide
  · intro hmem
    obtain ⟨d, hd, hc⟩ := List.mem_map.mp hmem
    exact digitChar_ne_underscore d (natDigits_lt n d (List.mem_reverse.mp hd)) hc

theorem natDigits_eq_zero_digit (n : Nat) (h : natDigits n = [0]) : n = 0 := by
  rw [natDigits_eq_digits] at h
  have h2 := congrArg (Nat.ofDigits 10) h
  rw [Nat.ofDigits_digits] at h2
  simpa [Nat.ofDigits] using h2

theorem digit_render_eq_zero_render (n : Nat)
    (h : (['0'] : List Char) = (natDigits n).reverse.map digitChar) : n = 0 := by
  have h0 : List.map digitChar [0] = (natDigits n).reverse.map digitChar := by
    simpa [digitChar] using h
  have heq := map_digitChar_inj [0] ((natDigits n).reverse) (by simp)
    (fun d hdm => natDigits_lt n d (List.mem_reverse.mp hdm)) h0
  have hrev : natDigits n = [0] := by
    have h3 := congrArg List.reverse heq
    simpa using h3.symm
  exact natDigits_eq_zero_digit n hrev

theorem natDecimal_inj (m n : Nat) (h : natDecimal m = natDecimal n) : m = n := by
  have hd := congrArg String.data h
  rw [natDecimal_data, natDecimal_data] at hd
  by_cases hm : m = 0 <;> by_cases hn : n = 0
  · omega
  · rw [if_pos hm, if_neg hn] at hd
    rw [hm, digit_render_eq_zero_render n hd]
  · rw [if_neg hm, if_pos hn] at hd
    rw [hn, digit_render_eq_zero_render m hd.symm]
  · rw [if_neg hm, if_neg hn] at hd
    have heq := map_digitChar_inj ((natDigits m).reverse) ((natDigits n).reverse)
      (fun d hdm => natDigits_lt m d (List.mem_reverse.mp hdm))
      (fun d hdm => natDigits_lt n d (List.mem_reverse.mp hdm)) hd
    have h3 := congrArg List.reverse heq
    simp only [List.reverse_reverse] at h3
    exact natDigits_inj m n h3

/-- A digit sequence, an underscore separator and a tail determine each
other when the digit parts are underscore-free. -/
theorem sep_split : ∀ (d1 d2 r1 r2 : List Char), '_' ∉ d1 → '_' ∉ d2 →
    d1 ++ '_' :: r1 = d2 ++ '_' :: r2 → d1 = d2 ∧ r1 = r2
  | [], [], r1, r2, _, _, h => by simpa using h
  | [], c :: d2, r1, r2, _, h2, h => by
    simp only [List.nil_append, List.cons_append, List.cons.injEq] at h
    obtain ⟨hc, -⟩ := h
    subst hc
    exact absurd (List.mem_cons_self _ _) h2
  | c :: d1, [], r1, r2, h1, _, h => by
    simp only [List.nil_append, List.cons_append, List.cons.injEq] at h
    obtain ⟨hc, -⟩ := h
    subst hc
    exact absurd (List.mem_cons_self _ _) h1
  | a :: d1, b :: d2, r1, r2, h1, h2, h => by
    simp only [List.cons_append, List.cons.injEq] at h
    obtain ⟨hab, htail⟩ := h
    subst hab
    have hrec := sep_split d1 d2 r1 r2 (fun hm => h1 (List.mem_cons_of_mem _ hm))
      (fun hm => h2 (List.mem_cons_of_mem _ hm)) htail
    exact ⟨by rw [hrec.1], hrec.2⟩

theorem string_data_append (a b : String) : (a ++ b).data = a.data ++ b.data := rfl

/-- Two server-generated chat-message ids coincide exactly when both the
millisecond timestamp and the random token coincide: the decimal timestamp
part is underscore-free, so the first underscore after `msg_` splits the id
unambiguously. -/
theorem messageId_inj (t1 t2 : Nat) (r1 r2 : String) :
    messageId t1 r1 = messageId t2 r2 ↔ (t1 = t2 ∧ r1 = r2) := by
  constructor
  · intro h
    have hd := congrArg String.data h
    simp only [messageId, string_data_append, List.append_assoc] at hd
    have hd2 := List.append_cancel_left hd
    have hsep := sep_split (natDecimal t1).data (natDecimal t2).data r1.data r2.data
      (underscore_not_mem_natDecimal t1) (underscore_not_mem_natDecimal t2)
      (by simpa using hd2)
    refine ⟨natDecimal_inj t1 t2 ?_, ?_⟩
    · apply String.ext
      exact hsep.1
    · apply String.ext
      exact hsep.2
  · rintro ⟨rfl, rfl⟩
    rfl

/-! ### Room-membership invariants of the event handlers -/

theorem roomMembers_eq_of_rooms (st st' : ServerState) (r : String)
    (h : st'.rooms = st.rooms) : roomMembers st' r = roomMembers st r := by
  unfold roomMembers
  rw [h]

theorem cuSet_rooms (st : ServerState) (sid : String) : (cuSet st sid).rooms = st.rooms := by
  unfold cuSet
  split <;> rfl

theorem cuSet_sockets (st : ServerState) (sid : String) :
    (cuSet st sid).sockets = st.sockets := by
  unfold cuSet
  split <;> rfl

theorem joinRoom_sockets (st : ServerState) (p x : String) :
    (joinRoom st p x).sockets = st.sockets := by
  unfold joinRoom
  dsimp only
  split <;> rfl

theorem roomMembers_joinRoom_other (st : ServerState) (p x r : String) (h : r ≠ p) :
    roomMembers (joinRoom st p x) r = roomMembers st r := by
  unfold joinRoom
  dsimp only
  split
  · rfl
  · unfold roomMembers
    dsimp only
    rw [alGet_alSet_ne _ _ _ _ h]

theorem mem_roomMembers_joinRoom (st : ServerState) (p x r sid : String)
    (h : sid ∈ roomMembers st r) : sid ∈ roomMembers (joinRoom st p x) r := by
  by_cases hr : r = p
  · subst hr
    unfold joinRoom
    dsimp only
    split
    · exact h
    · unfold roomMembers
      dsimp only
      rw [alGet_alSet_self]
      exact List.mem_append_left _ h
  · rw [roomMembers_joinRoom_other st p x r hr]
    exact h

theorem self_mem_roomMembers_joinRoom (st : ServerState) (p x : String) :
    x ∈ roomMembers (joinRoom st p x) p := by
  unfold joinRoom
  dsimp only
  split
  · assumption
  · unfold roomMembers
    dsimp only
    rw [alGet_alSet_self]
    exact List.mem_append_right _ (by simp)

theorem mem_roomMembers_joinRoom_elim (st : ServerState) (p x r sid : String)
    (h : sid ∈ roomMembers (joinRoom st p x) r) :
    sid ∈ roomMembers st r ∨ (sid = x ∧ r = p) := by
  by_cases hr : r = p
  · subst hr
    unfold joinRoom at h
    dsimp only at h
    by_cases hm : x ∈ roomMembers st r
    · rw [if_pos hm] at h
      exact Or.inl h
    · rw [if_neg hm] at h
      unfold roomMembers at h
      dsimp only at h
      rw [alGet_alSet_self] at h
      rcases List.mem_append.mp h with h2 | h2
      · exact Or.inl h2
      · exact Or.inr ⟨by simpa using h2, rfl⟩
  · rw [roomMembers_joinRoom_other st p x r hr] at h
    exact Or.inl h

theorem rooms_onAuthenticate_some (st : ServerState) (sid : String) (d : AuthData)
    (now : Nat) :
    (onAuthenticate st sid (some d) now).1.rooms =
      (joinRoom (setSock st sid ⟨some d.userId, some d.projectId⟩) d.projectId sid).rooms := by
  unfold onAuthenticate
  dsimp only
  rw [cuSet_rooms]

theorem mem_roomMembers_handleEvent (st : ServerState) (sid : String) (ev : Event)
    (now : Nat) (rand : String) (r x : String) (h : x ∈ roomMembers st r) :
    x ∈ roomMembers (handleEvent st sid ev now rand).1 r := by
  cases ev with
  | authenticate data =>
    cases data with
    | none => exact h
    | some d =>
      rw [show handleEvent st sid (Event.authenticate (some d)) now rand
          = onAuthenticate st sid (some d) now from rfl,
        roomMembers_eq_of_rooms _ _ _ (rooms_onAuthenticate_some st sid d now)]
      exact mem_roomMembers_joinRoom _ _ _ _ _ h
  | cursorUpdate l c =>
    unfold handleEvent onCursorUpdate
    dsimp only
    split <;> exact h
  | fileChange f g hc =>
    unfold handleEvent onFileChange
    dsimp only
    split <;> exact h
  | chatMessage m ty =>
    unfold handleEvent onChatMessage
    dsimp only
    split <;> exact h
  | typingStart =>
    unfold handleEvent onTypingStart
    dsimp only
    split <;> exact h
  | typingStop =>
    unfold handleEvent onTypingStop
    dsimp only
    split <;> exact h
  | disconnect =>
    unfold handleEvent onDisconnect
    dsimp only
    split <;> exact h
  | sendToProject p ev => exact h

theorem mem_roomMembers_handleEvent_elim (st : ServerState) (sid : String) (ev : Event)
    (now : Nat) (rand : String) (r x : String)
    (h : x ∈ roomMembers (handleEvent st sid ev now rand).1 r) :
    x ∈ roomMembers st r ∨
      ∃ d, ev = Event.authenticate (some d) ∧ x = sid ∧ r = d.projectId := by
  cases ev with
  | authenticate data =>
    cases data with
    | none => exact Or.inl h
    | some d =>
      rw [show handleEvent st sid (Event.authenticate (some d)) now rand
          = onAuthenticate st sid (some d) now from rfl,
        roomMembers_eq_of_rooms _ _ _ (rooms_onAuthenticate_some st sid d now)] at h
      rcases mem_roomMembers_joinRoom_elim _ _ _ _ _ h with h2 | h2
      · exact Or.inl h2
      · exact Or.inr ⟨d, rfl, h2.1, h2.2⟩
  | cursorUpdate l c =>
    unfold handleEvent onCursorUpdate at h
    dsimp only at h
    revert h
    split <;> exact Or.inl
  | fileChange f g hc =>
    unfold handleEvent onFileChange at h
    dsimp only at h
    revert h
    split <;> exact Or.inl
  | chatMessage m ty =>
    unfold handleEvent onChatMessage at h
    dsimp only at h
    revert h
    split <;> exact Or.inl
  | typingStart =>
    unfold handleEvent onTypingStart at h
    dsimp only at h
    revert h
    split <;> exact Or.inl
  | typingStop =>
    unfold handleEvent onTypingStop at h
    dsimp only at h
    revert h
    split <;> exact Or.inl
  | disconnect =>
    unfold handleEvent onDisconnect at h
    dsimp only at h
    revert h
    split <;> exact Or.inl
  | sendToProject p ev => exact Or.inl h

/-! ### Socket-field invariants of the event handlers -/

theorem sockets_onAuthenticate_some (st : ServerState) (sid : String) (d : AuthData)
    (now : Nat) :
    (onAuthenticate st sid (some d) now).1.sockets =
      alSet st.sockets sid ⟨some d.userId, some d.projectId⟩ := by
  unfold onAuthenticate
  dsimp only
  rw [cuSet_sockets, joinRoom_sockets]
  rfl

theorem getSock_handleEvent_self_auth (st : ServerState) (sid : String) (d : AuthData)
    (now : Nat) (rand : String) :
    getSock (handleEvent st sid (Event.authenticate (some d)) now rand).1 sid =
      ⟨some d.userId, some d.projectId⟩ := by
  unfold getSock
  rw [show (handleEvent st sid (Event.authenticate (some d)) now rand).1
      = (onAuthenticate st sid (some d) now).1 from rfl,
    sockets_onAuthenticate_some, alGet_alSet_self]
  rfl

theorem getSock_handleEvent_cases (st : ServerState) (sid : String) (ev : Event)
    (now : Nat) (rand : String) (x : String) :
    getSock (handleEvent st sid ev now rand).1 x = getSock st x ∨
      ∃ d, ev = Event.authenticate (some d) ∧ x = sid ∧
        getSock (handleEvent st sid ev now rand).1 x = ⟨some d.userId, some d.projectId⟩ := by
  cases ev with
  | authenticate data =>
    cases data with
    | none => exact Or.inl rfl
    | some d =>
      by_cases hx : x = sid
      · subst hx
        exact Or.inr ⟨d, rfl, rfl, getSock_handleEvent_self_auth st x d now rand⟩
      · left
        unfold getSock
        rw [show (handleEvent st sid (Event.authenticate (some d)) now rand).1
            = (onAuthenticate st sid (some d) now).1 from rfl,
          sockets_onAuthenticate_some, alGet_alSet_ne _ _ _ _ hx]
  | cursorUpdate l c =>
    left
    unfold handleEvent onCursorUpdate
    dsimp only
    split <;> rfl
  | fileChange f g hc =>
    left
    unfold handleEvent onFileChange
    dsimp only
    split <;> rfl
  | chatMessage m ty =>
    left
    unfold handleEvent onChatMessage
    dsimp only
    split <;> rfl
  | typingStart =>
    left
    unfold handleEvent onTypingStart
    dsimp only
    split <;> rfl
  | typingStop =>
    left
    unfold handleEvent onTypingStop
    dsimp only
    split <;> rfl
  | disconnect =>
    left
    unfold handleEvent onDisconnect
    dsimp only
    split <;> rfl
  | sendToProject p ev => exact Or.inl rfl

/-- The spec's Connection invariant, first half: a socket whose `projectId`
field is set is a member of the socket.io room of that project id. -/
def projInv (st : ServerState) : Prop :=
  ∀ sid p, (getSock st sid).projectId = some p → sid ∈ roomMembers st p

theorem projInv_handleEvent (st : ServerState) (sid : String) (ev : Event) (now : Nat)
    (rand : String) (h : projInv st) : projInv (handleEvent st sid ev now rand).1 := by
  intro x p hp
  rcases getSock_handleEvent_cases st sid ev now rand x with hc | ⟨d, hev, hx, hc⟩
  · rw [hc] at hp
    exact mem_roomMembers_handleEvent _ _ _ _ _ _ _ (h x p hp)
  · subst hev
    subst hx
    rw [hc] at hp
    simp only [Option.some.injEq] at hp
    subst hp
    rw [show handleEvent st x (Event.authenticate (some d)) now rand
        = onAuthenticate st x (some d) now from rfl,
      roomMembers_eq_of_rooms _ _ _ (rooms_onAuthenticate_some st x d now)]
    exact self_mem_roomMembers_joinRoom _ _ _

theorem projInv_initState : projInv initState := by
  intro sid p hp
  simp [getSock, initState, alGet] at hp

theorem run_fst_cons (st : ServerState) (a : Action) (as : List Action) :
    (run st (a :: as)).1 = (run (step st a).1 as).1 := rfl

theorem run_snd_cons (st : ServerState) (a : Action) (as : List Action) :
    (run st (a :: as)).2 = (step st a).2 ++ (run (step st a).1 as).2 := rfl

theorem projInv_run (st : ServerState) (as : List Action) (h : projInv st) :
    projInv (run st as).1 := by
  induction as generalizing st with
  | nil => exact h
  | cons a as ih =>
    rw [run_fst_cons]
    exact ih _ (projInv_handleEvent st a.sid a.ev a.now a.rand h)

theorem mem_roomMembers_run_elim (st : ServerState) (as : List Action) (x r : String)
    (h : x ∈ roomMembers (run st as).1 r) :
    x ∈ roomMembers st r ∨ authedInto as x r = true := by
  induction as generalizing st with
  | nil => exact Or.inl h
  | cons a as ih =>
    rw [run_fst_cons] at h
    have step_elim : x ∈ roomMembers (step st a).1 r →
        x ∈ roomMembers st r ∨ authedInto (a :: as) x r = true := by
      intro h2
      rcases mem_roomMembers_handleEvent_elim st a.sid a.ev a.now a.rand r x h2 with
        h3 | ⟨d, hev, hx, hr⟩
      · exact Or.inl h3
      · right
        unfold authedInto
        rw [List.any_cons]
        have hh : isAuthInto x r a = true := by
          unfold isAuthInto
          rw [hev, hx, hr]
          simp
        rw [hh]
        simp
    rcases ih (step st a).1 h with h2 | h2
    · exact step_elim h2
    · right
      unfold authedInto
      rw [List.any_cons]
      unfold authedInto at h2
      rw [h2]
      simp

/-! ### Delivery lemmas -/

theorem mem_deliver (st : ServerState) (e : Emission) (d : Delivery)
    (h : d ∈ deliver st e) :
    d.event = e.event ∧ d.target = e.target ∧ d.rcpt ∈ recipients st e.target := by
  unfold deliver at h
  obtain ⟨x, hx, hd⟩ := List.mem_map.mp h
  subst hd
  exact ⟨rfl, rfl, hx⟩

theorem mem_step_deliveries (st : ServerState) (a : Action) (d : Delivery)
    (hd : d ∈ (step st a).2) :
    ∃ e ∈ (handleEvent st a.sid a.ev a.now a.rand).2,
      d.event = e.event ∧ d.target = e.target ∧
        d.rcpt ∈ recipients (step st a).1 e.target := by
  unfold step at hd
  dsimp only at hd
  obtain ⟨l, hl, hdl⟩ := List.mem_flatten.mp hd
  obtain ⟨e, he, hle⟩ := List.mem_map.mp hl
  subst hle
  obtain ⟨h1, h2, h3⟩ := mem_deliver _ _ _ hdl
  exact ⟨e, he, h1, h2, h3⟩

theorem recipients_room_subset (st : ServerState) (t : Target) (r x : String)
    (ht : targetRoom t = some r) (h : x ∈ recipients st t) : x ∈ roomMembers st r := by
  cases t with
  | roomExcept rr s =>
    obtain rfl : rr = r := by simpa [targetRoom] using ht
    exact (List.mem_filter.mp h).1
  | room rr =>
    obtain rfl : rr = r := by simpa [targetRoom] using ht
    exact h
  | sock s => simp [targetRoom] at ht

theorem step_delivery_mem (st : ServerState) (a : Action) (d : Delivery) (r : String)
    (hd : d ∈ (step st a).2) (hr : targetRoom d.target = some r) :
    d.rcpt ∈ roomMembers (step st a).1 r := by
  obtain ⟨e, he, h1, h2, h3⟩ := mem_step_deliveries st a d hd
  exact recipients_room_subset _ _ _ _ (by rw [← h2]; exact hr) h3

theorem run_delivery_mem (st : ServerState) (as : List Action) (d : Delivery) (r : String)
    (hd : d ∈ (run st as).2) (hr : targetRoom d.target = some r) :
    d.rcpt ∈ roomMembers st r ∨ authedInto as d.rcpt r = true := by
  induction as generalizing st with
  | nil => simp [run] at hd
  | cons a as ih =>
    have room_elim : d.rcpt ∈ roomMembers (step st a).1 r →
        d.rcpt ∈ roomMembers st r ∨ authedInto (a :: as) d.rcpt r = true := by
      intro h2
      rcases mem_roomMembers_handleEvent_elim st a.sid a.ev a.now a.rand r d.rcpt h2 with
        h3 | ⟨dd, hev, hx, hrr⟩
      · exact Or.inl h3
      · right
        unfold authedInto
        rw [List.any_cons]
        have hh : isAuthInto d.rcpt r a = true := by
          unfold isAuthInto
          rw [hev, hx, hrr]
          simp
        rw [hh]
        simp
    rw [run_snd_cons] at hd
    rcases List.mem_append.mp hd with h1 | h1
    · exact room_elim (step_delivery_mem st a d r h1 hr)
    · rcases ih (step st a).1 h1 with h2 | h2
      · exact room_elim h2
      · right
        unfold authedInto
        rw [List.any_cons]
        unfold authedInto at h2
        rw [h2]
        simp

/-! ### Only the disconnect handler ever emits a member-left notification -/

theorem emission_event_userLeft (st : ServerState) (sid : String) (ev : Event)
    (now : Nat) (rand : String) (e : Emission)
    (he : e ∈ (handleEvent st sid ev now rand).2) (hn : e.event = "user_left") :
    ev = Event.disconnect ∨ ∃ p, ev = Event.sendToProject p "user_left" := by
  cases ev with
  | disconnect => exact Or.inl rfl
  | authenticate data =>
    cases data with
    | none =>
      rw [List.mem_singleton.mp he] at hn
      simp at hn
    | some d =>
      rw [List.mem_singleton.mp he] at hn
      simp at hn
  | cursorUpdate l c =>
    unfold handleEvent onCursorUpdate at he
    dsimp only at he
    split at he
    · rw [List.mem_singleton.mp he] at hn
      simp at hn
    · exact absurd he (List.not_mem_nil e)
  | fileChange f g hc =>
    unfold handleEvent onFileChange at he
    dsimp only at he
    split at he
    · rw [List.mem_singleton.mp he] at hn
      simp at hn
    · exact absurd he (List.not_mem_nil e)
  | chatMessage m ty =>
    unfold handleEvent onChatMessage at he
    dsimp only at he
    split at he
    · rw [List.mem_singleton.mp he] at hn
      simp at hn
    · exact absurd he (List.not_mem_nil e)
  | typingStart =>
    unfold handleEvent onTypingStart at he
    dsimp only at he
    split at he
    · rw [List.mem_singleton.mp he] at hn
      simp at hn
    · exact absurd he (List.not_mem_nil e)
  | typingStop =>
    unfold handleEvent onTypingStop at he
    dsimp only at he
    split at he
    · rw [List.mem_singleton.mp he] at hn
      simp at hn
    · exact absurd he (List.not_mem_nil e)
  | sendToProject p evn =>
    right
    refine ⟨p, ?_⟩
    rw [List.mem_singleton.mp he] at hn
    have hevn : evn = "user_left" := hn
    rw [hevn]

theorem noDisconnect_cons (a : Action) (as : List Action)
    (h : noDisconnect (a :: as) = true) :
    mayEmitUserLeft a = false ∧ noDisconnect as = true := by
  unfold noDisconnect at h
  rw [List.all_cons] at h
  simp only [Bool.and_eq_true, Bool.not_eq_true'] at h
  exact ⟨h.1, h.2⟩

theorem no_userLeft_run (st : ServerState) (as : List Action)
    (h : noDisconnect as = true) :
    (run st as).2.filter (fun d => d.event == "user_left") = [] := by
  induction as generalizing st with
  | nil => rfl
  | cons a as ih =>
    obtain ⟨ha, hrest⟩ := noDisconnect_cons a as h
    rw [run_snd_cons, List.filter_append, ih _ hrest, List.append_nil]
    rw [List.filter_eq_nil_iff]
    intro d hd hp
    obtain ⟨e, he, h1, -, -⟩ := mem_step_deliveries st a d hd
    have hev : d.event = "user_left" := by simpa using hp
    rcases emission_event_userLeft st a.sid a.ev a.now a.rand e he (h1 ▸ hev) with
      hdis | ⟨p, hsend⟩
    · rw [mayEmitUserLeft, hdis] at ha
      simp at ha
    · rw [mayEmitUserLeft, hsend] at ha
      simp at ha

/-! ### Remaining projection lemmas -/

theorem cuSet_store (st : ServerState) (sid : String) : (cuSet st sid).store = st.store := by
  unfold cuSet
  split <;> rfl

theorem joinRoom_store (st : ServerState) (p x : String) :
    (joinRoom st p x).store = st.store := by
  unfold joinRoom
  dsimp only
  split <;> rfl

theorem store_onAuthenticate_some (st : ServerState) (sid : String) (d : AuthData)
    (now : Nat) :
    (onAuthenticate st sid (some d) now).1.store =
      updateCollaborationSession st.store d.userId d.projectId sid now := by
  unfold onAuthenticate
  dsimp only
  rw [cuSet_store, joinRoom_store]
  rfl

theorem truthy_some (u : String) (h : u ≠ "") : truthy (some u) = true := by
  simp [truthy, h]

/-! ## The claims -/

/-- C2: every event other than `authenticate` (`cursor_update`,
`file_change`, `chat_message`, `typing_start`, `typing_stop`) received from
a connection whose `userId` or `projectId` is unset is silently discarded:
the server state (hence the state store) is unchanged and no emission of
any kind is produced — no broadcast and no reply to the sender. -/
theorem c2_unauthenticated_discard (st : ServerState) (sid m fid fc ch rand : String)
    (ty : Option String) (l c : Int) (now : Nat)
    (h : (getSock st sid).userId = none ∨ (getSock st sid).projectId = none) :
    handleEvent st sid (Event.cursorUpdate l c) now rand = (st, [])
    ∧ handleEvent st sid (Event.fileChange fid fc ch) now rand = (st, [])
    ∧ handleEvent st sid (Event.chatMessage m ty) now rand = (st, [])
    ∧ handleEvent st sid Event.typingStart now rand = (st, [])
    ∧ handleEvent st sid Event.typingStop now rand = (st, []) := by
  have hguard : (truthy (getSock st sid).userId && truthy (getSock st sid).projectId)
      = false := by
    rcases h with h | h <;> rw [h] <;> simp [truthy]
  refine ⟨?_, ?_, ?_, ?_, ?_⟩
  · unfold handleEvent onCursorUpdate
    dsimp only
    rw [hguard]
    rfl
  · unfold handleEvent onFileChange
    dsimp only
    rw [hguard]
    rfl
  · unfold handleEvent onChatMessage
    dsimp only
    rw [hguard]
    rfl
  · unfold handleEvent onTypingStart
    dsimp only
    rw [hguard]
    rfl
  · unfold handleEvent onTypingStop
    dsimp only
    rw [hguard]
    rfl

/-- C4: a failing `authenticate` event (malformed payload, so the handler's
`try` throws before any mutation) produces exactly one delivery — the
`auth_error` reply to the offending socket itself — and afterwards the
connection still has no `userId`, no `projectId`, and is a member of no
room. -/
theorem c4_auth_failure_isolated (st : ServerState) (sid rand : String) (now : Nat)
    (h1 : (getSock st sid).userId = none) (h2 : (getSock st sid).projectId = none)
    (h3 : ∀ r, sid ∉ roomMembers st r) :
    (step st ⟨sid, Event.authenticate none, now, rand⟩).2
      = [⟨sid, "auth_error", Target.sock sid, Payload.authError "Authentication failed"⟩]
    ∧ (getSock (step st ⟨sid, Event.authenticate none, now, rand⟩).1 sid).userId = none
    ∧ (getSock (step st ⟨sid, Event.authenticate none, now, rand⟩).1 sid).projectId = none
    ∧ ∀ r, sid ∉ roomMembers (step st ⟨sid, Event.authenticate none, now, rand⟩).1 r :=
  ⟨rfl, h1, h2, h3⟩

/-- Witness trace for C4: a failing authenticate on the empty server. -/
theorem c4_auth_failure_isolated_witness :
    (step initState ⟨"c9", Event.authenticate none, 5, "r"⟩).2
      = [⟨"c9", "auth_error", Target.sock "c9", Payload.authError "Authentication failed"⟩]
    ∧ (getSock (step initState ⟨"c9", Event.authenticate none, 5, "r"⟩).1 "c9").userId = none
    ∧ (getSock (step initState ⟨"c9", Event.authenticate none, 5, "r"⟩).1 "c9").projectId = none
    ∧ ∀ r, "c9" ∉ roomMembers (step initState ⟨"c9", Event.authenticate none, 5, "r"⟩).1 r :=
  c4_auth_failure_isolated initState "c9" "r" 5 (by decide) (by decide)
    (fun r => List.not_mem_nil "c9")

/-- Trace in which one connection authenticates into room A and then
re-authenticates into room B. -/
def traceReauth : List Action :=
  [⟨"c1", Event.authenticate (some ⟨"u1", "A"⟩), 10, "r"⟩,
   ⟨"c1", Event.authenticate (some ⟨"u1", "B"⟩), 11, "r"⟩]

/-- C5 counterexample: after a second `authenticate` with a different
projectId, the connection's `projectId` is B yet it is still a member of
room A's membership set as well as room B's — it is a member of two rooms,
so the claimed exactly-one-membership invariant fails. -/
theorem c5_counterexample_multiroom :
    (getSock (exec traceReauth) "c1").projectId = some "B"
    ∧ "c1" ∈ roomMembers (exec traceReauth) "A"
    ∧ "c1" ∈ roomMembers (exec traceReauth) "B"
    ∧ ("A" : String) ≠ "B" := by decide

/-- C5 amended: a connection is only ever a member of rooms it has
authenticated into, and a connection whose `projectId` is set is a member
of the room of that projectId; but re-authentication with a different
projectId leaves the earlier membership in place, so membership in exactly
one room holds only for connections that authenticated into a single
projectId. -/
theorem c5_amended_membership (as : List Action) (sid r p : String) :
    (sid ∈ roomMembers (exec as) r → authedInto as sid r = true)
    ∧ ((getSock (exec as) sid).projectId = some p → sid ∈ roomMembers (exec as) p) := by
  constructor
  · intro h
    rcases mem_roomMembers_run_elim initState as sid r h with h2 | h2
    · exact absurd h2 (List.not_mem_nil sid)
    · exact h2
  · intro h
    exact projInv_run initState as projInv_initState sid p h

/-- Witness for C5's amended theorem on the re-authentication trace. -/
theorem c5_amended_membership_witness :
    authedInto traceReauth "c1" "A" = true
    ∧ "c1" ∈ roomMembers (exec traceReauth) "B" :=
  ⟨(c5_amended_membership traceReauth "c1" "A" "B").1 (by decide),
   (c5_amended_membership traceReauth "c1" "B" "B").2 (by decide)⟩

/-- Trace in which `c3` authenticates into room A, then into room B, and
then `c1` (in room A) broadcasts a cursor update addressed to room A. -/
def traceCrossRoom : List Action :=
  [⟨"c1", Event.authenticate (some ⟨"u1", "A"⟩), 10, "r"⟩,
   ⟨"c3", Event.authenticate (some ⟨"u3", "A"⟩), 11, "r"⟩,
   ⟨"c3", Event.authenticate (some ⟨"u3", "B"⟩), 12, "r"⟩,
   ⟨"c1", Event.cursorUpdate 4 10, 13, "r"⟩]

/-- C9 counterexample: a cursor broadcast addressed to room A is delivered
to connection `c3` although `c3`'s current room (its `projectId`) is B —
room isolation as claimed fails for connections that re-authenticated. -/
theorem c9_counterexample_stale_membership :
    (⟨"c3", "cursor_update", Target.roomExcept "A" "c1",
        Payload.cursorPos "u1" 4 10 13⟩ : Delivery) ∈ (run initState traceCrossRoom).2
    ∧ (getSock (exec traceCrossRoom) "c3").projectId = some "B"
    ∧ ("B" : String) ≠ "A" := by decide

/-- C9 amended: an event addressed to room A is only ever delivered to
connections that at some point authenticated into room A; a connection
that never authenticated into A never observes room-A traffic, but a
connection whose current room is B may still receive room-A broadcasts if
it previously authenticated into A. -/
theorem c9_amended_isolation (as : List Action) (d : Delivery) (r : String)
    (hd : d ∈ (run initState as).2) (hr : targetRoom d.target = some r) :
    authedInto as d.rcpt r = true := by
  rcases run_delivery_mem initState as d r hd hr with h | h
  · exact absurd h (List.not_mem_nil d.rcpt)
  · exact h

/-- Witness for C9's amended theorem: the cross-room delivery of
`traceCrossRoom` goes to a connection that did authenticate into room A. -/
theorem c9_amended_isolation_witness : authedInto traceCrossRoom "c3" "A" = true :=
  c9_amended_isolation traceCrossRoom
    ⟨"c3", "cursor_update", Target.roomExcept "A" "c1", Payload.cursorPos "u1" 4 10 13⟩
    "A" (by decide) (by decide)

/-- Trace of an abrupt disconnect: two connections authenticate at time 0
and then the first one vanishes without any disconnect event. -/
def traceAbrupt : List Action :=
  [⟨"c1", Event.authenticate (some ⟨"u1", "p1"⟩), 0, "r"⟩,
   ⟨"c2", Event.authenticate (some ⟨"u2", "p1"⟩), 0, "r"⟩]

/-- C7 counterexample: after the liveness TTL has elapsed (read at t =
3601 > 0 + 3600 the session record is absent), the remaining room member
has received zero `user_left` notifications, not exactly one — the code
performs no reaper cleanup and no member-left notification on TTL
expiry. -/
theorem c7_counterexample_no_reaper :
    getCache (exec traceAbrupt).store ("collaboration:" ++ "u1" ++ ":" ++ "p1") 3601 = none
    ∧ (run initState traceAbrupt).2.filter (fun d => d.event == "user_left") = [] := by
  constructor
  · decide
  · decide

/-- C7 amended: TTL expiry silently expires the presence record (a session
record written at `now` reads as absent at every `t ≥ now + 3600`), but no
member-left notification is ever emitted by TTL expiry: in any trace with
no disconnect event (and no explicit `sendToProject` of the `user_left`
name) there are no `user_left` deliveries at all — member-left
notifications come only from the explicit disconnect handler. -/
theorem c7_amended_no_ttl_notification (st : ServerState) (as : List Action)
    (sid u p rand : String) (now t : Nat)
    (h : noDisconnect as = true) (ht : now + 3600 ≤ t) :
    (run initState as).2.filter (fun d => d.event == "user_left") = []
    ∧ getCache ((step st ⟨sid, Event.authenticate (some ⟨u, p⟩), now, rand⟩).1).store
        ("collaboration:" ++ u ++ ":" ++ p) t = none := by
  constructor
  · exact no_userLeft_run initState as h
  · rw [show (step st ⟨sid, Event.authenticate (some ⟨u, p⟩), now, rand⟩).1
        = (onAuthenticate st sid (some ⟨u, p⟩) now).1 from rfl]
    unfold getCache
    rw [show ((onAuthenticate st sid (some ⟨u, p⟩) now).1.store : List (String × StoreEntry))
        = (updateCollaborationSession st.store u p sid now : Store) from
        store_onAuthenticate_some st sid ⟨u, p⟩ now]
    unfold updateCollaborationSession setCache
    rw [alGet_alSet_self]
    dsimp only
    rw [if_neg (by omega)]

/-- Witness for C7's amended theorem on the abrupt-disconnect trace. -/
theorem c7_amended_no_ttl_notification_witness :
    (run initState traceAbrupt).2.filter (fun d => d.event == "user_left") = []
    ∧ getCache ((step initState ⟨"c1", Event.authenticate (some ⟨"u1", "p1"⟩), 0, "r"⟩).1).store
        ("collaboration:" ++ "u1" ++ ":" ++ "p1") 3601 = none :=
  c7_amended_no_ttl_notification initState traceAbrupt "c1" "u1" "p1" "r" 0 3601
    (by decide) (by omega)

/-- C10: `getConnectedUsers(projectId)` returns a duplicate-free list that
contains a userId exactly when some registered connection (a key of the
`connectedUsers` map) has exactly that projectId and that (truthy, i.e.
nonempty) userId; unauthenticated connections (unset or empty fields) and
connections of other projects never contribute. -/
theorem c10_connected_users (st : ServerState) (p u : String) :
    (u ∈ getConnectedUsers st p ↔ ∃ sid, sid ∈ st.connectedUsers ∧
      (getSock st sid).projectId = some p ∧ (getSock st sid).userId = some u ∧ u ≠ "")
    ∧ (getConnectedUsers st p).Nodup := by
  constructor
  · unfold getConnectedUsers
    rw [mem_jsSetDedup, List.mem_filterMap]
    constructor
    · rintro ⟨sid, hsid, hf⟩
      dsimp only at hf
      revert hf
      split
      · rename_i hcond
        intro hf
        rw [Bool.and_eq_true] at hcond
        obtain ⟨hproj, htruthy⟩ := hcond
        refine ⟨sid, hsid, by simpa using hproj, hf, ?_⟩
        rw [hf] at htruthy
        simpa [truthy] using htruthy
      · intro hf
        exact absurd hf (by simp)
    · rintro ⟨sid, hsid, hproj, huid, hne⟩
      refine ⟨sid, hsid, ?_⟩
      dsimp only
      rw [if_pos]
      · exact huid
      · rw [huid, hproj, truthy_some u hne]
        simp
  · exact jsSetDedup_nodup _

/-- A state with two connections authenticated into room A, used by
several witnesses. -/
def pairState : ServerState :=
  exec [⟨"c1", Event.authenticate (some ⟨"u1", "A"⟩), 1, "r"⟩,
        ⟨"c2", Event.authenticate (some ⟨"u2", "A"⟩), 2, "r"⟩]

/-- C1: for an authenticated connection, the `chat_message` broadcast is
delivered to the whole member list of the sender's room (hence including
the sender, which is a member), while `cursor_update`, `file_change`,
`typing_start`, `typing_stop`, the `user_left` of a disconnect and the
`user_joined` of an authenticate are delivered to the room's member list
with the sender removed. -/
theorem c1_broadcast_targets (st : ServerState) (sid u p m fid fc ch rand : String)
    (ty : Option String) (l c : Int) (now : Nat)
    (hu : (getSock st sid).userId = some u) (hu2 : u ≠ "")
    (hp : (getSock st sid).projectId = some p) (hp2 : p ≠ "")
    (hmem : sid ∈ roomMembers st p) :
    ((step st ⟨sid, Event.chatMessage m ty, now, rand⟩).2.map Delivery.rcpt
        = roomMembers st p
      ∧ sid ∈ (step st ⟨sid, Event.chatMessage m ty, now, rand⟩).2.map Delivery.rcpt)
    ∧ (step st ⟨sid, Event.cursorUpdate l c, now, rand⟩).2.map Delivery.rcpt
        = exceptSelf (roomMembers st p) sid
    ∧ (step st ⟨sid, Event.fileChange fid fc ch, now, rand⟩).2.map Delivery.rcpt
        = exceptSelf (roomMembers st p) sid
    ∧ (step st ⟨sid, Event.typingStart, now, rand⟩).2.map Delivery.rcpt
        = exceptSelf (roomMembers st p) sid
    ∧ (step st ⟨sid, Event.typingStop, now, rand⟩).2.map Delivery.rcpt
        = exceptSelf (roomMembers st p) sid
    ∧ (step st ⟨sid, Event.disconnect, now, rand⟩).2.map Delivery.rcpt
        = exceptSelf (roomMembers st p) sid
    ∧ (step st ⟨sid, Event.authenticate (some ⟨u, p⟩), now, rand⟩).2.map Delivery.rcpt
        = exceptSelf
            (roomMembers (step st ⟨sid, Event.authenticate (some ⟨u, p⟩), now, rand⟩).1 p)
            sid := by
  have hg : (truthy (getSock st sid).userId && truthy (getSock st sid).projectId)
      = true := by
    rw [hu, hp, truthy_some u hu2, truthy_some p hp2]
    rfl
  refine ⟨⟨?_, ?_⟩, ?_, ?_, ?_, ?_, ?_, ?_⟩
  · unfold step handleEvent onChatMessage
    dsimp only
    rw [hg, if_pos rfl]
    simp [deliver, recipients, roomMembers, hp, List.map_map, Function.comp_def, List.map_id']
  · have hchat : (step st ⟨sid, Event.chatMessage m ty, now, rand⟩).2.map Delivery.rcpt
        = roomMembers st p := by
      unfold step handleEvent onChatMessage
      dsimp only
      rw [hg, if_pos rfl]
      simp [deliver, recipients, roomMembers, hp, List.map_map, Function.comp_def, List.map_id']
    rw [hchat]
    exact hmem
  · unfold step handleEvent onCursorUpdate
    dsimp only
    rw [hg, if_pos rfl]
    simp [deliver, recipients, roomMembers, exceptSelf, hp, List.map_map, Function.comp_def, List.map_id']
  · unfold step handleEvent onFileChange
    dsimp only
    rw [hg, if_pos rfl]
    simp [deliver, recipients, roomMembers, exceptSelf, hp, List.map_map, Function.comp_def, List.map_id']
  · unfold step handleEvent onTypingStart
    dsimp only
    rw [hg, if_pos rfl]
    simp [deliver, recipients, roomMembers, exceptSelf, hp, List.map_map, Function.comp_def, List.map_id']
  · unfold step handleEvent onTypingStop
    dsimp only
    rw [hg, if_pos rfl]
    simp [deliver, recipients, roomMembers, exceptSelf, hp, List.map_map, Function.comp_def, List.map_id']
  · unfold step handleEvent onDisconnect
    dsimp only
    rw [hg, if_pos rfl]
    simp [deliver, recipients, roomMembers, exceptSelf, cuDelete, hp, List.map_map, Function.comp_def, List.map_id']
  · unfold step handleEvent onAuthenticate
    dsimp only
    simp [deliver, recipients, roomMembers, exceptSelf, List.map_map, Function.comp_def, List.map_id']

/-- Witness for C1 on the two-member room: the chat broadcast reaches the
whole room, sender included. -/
theorem c1_broadcast_targets_witness :
    (step pairState ⟨"c1", Event.chatMessage "hi" none, 50, "tok"⟩).2.map Delivery.rcpt
        = roomMembers pairState "A"
      ∧ "c1" ∈ (step pairState ⟨"c1", Event.chatMessage "hi" none, 50, "tok"⟩).2.map
          Delivery.rcpt :=
  (c1_broadcast_targets pairState "c1" "u1" "A" "hi" "f" "cont" "ch" "tok" none 4 10 50
    (by decide) (by decide) (by decide) (by decide) (by decide)).1

/-- Witness for C2: an unregistered connection's cursor update on a
populated server changes nothing and answers nothing. -/
theorem c2_unauthenticated_discard_witness :
    handleEvent pairState "c9" (Event.cursorUpdate 4 10) 50 "tok" = (pairState, []) :=
  (c2_unauthenticated_discard pairState "c9" "m" "f" "c" "h" "tok" none 4 10 50
    (Or.inl (by decide))).1

/-- C6: the cursor write of `cursor_update` carries a 60-second TTL and the
session write of `authenticate` a 3600-second TTL: reading the cursor key
at time `t` after a write at `now` yields the value exactly when
`t < now + 60` (absent once more than 60 seconds old), and the session key
exactly when `t < now + 3600`. -/
theorem c6_presence_ttl (st : ServerState) (sid u p rand : String) (l c : Int)
    (now t : Nat)
    (hu : (getSock st sid).userId = some u) (hu2 : u ≠ "")
    (hp : (getSock st sid).projectId = some p) (hp2 : p ≠ "") :
    getCache ((step st ⟨sid, Event.cursorUpdate l c, now, rand⟩).1).store
        ("cursor:" ++ u ++ ":" ++ p) t
      = (if t < now + 60 then some (StoreValue.cursorVal l c) else none)
    ∧ getCache ((step st ⟨sid, Event.authenticate (some ⟨u, p⟩), now, rand⟩).1).store
        ("collaboration:" ++ u ++ ":" ++ p) t
      = (if t < now + 3600 then some (StoreValue.sessionVal sid now true) else none) := by
  have hg : (truthy (getSock st sid).userId && truthy (getSock st sid).projectId)
      = true := by
    rw [hu, hp, truthy_some u hu2, truthy_some p hp2]
    rfl
  constructor
  · unfold step handleEvent onCursorUpdate
    dsimp only
    rw [hg, if_pos rfl]
    dsimp only
    rw [hu, hp]
    simp only [Option.getD_some]
    exact getCache_setCache_self st.store _ _ 60 now t
  · rw [show (step st ⟨sid, Event.authenticate (some ⟨u, p⟩), now, rand⟩).1
        = (onAuthenticate st sid (some ⟨u, p⟩) now).1 from rfl]
    have hst := store_onAuthenticate_some st sid ⟨u, p⟩ now
    unfold getCache
    rw [show ((onAuthenticate st sid (some ⟨u, p⟩) now).1.store : List (String × StoreEntry))
        = (updateCollaborationSession st.store u p sid now : Store) from hst]
    unfold updateCollaborationSession setCache
    rw [alGet_alSet_self]

/-- Witness for C6 on the two-member room: a cursor written at 50 is gone
at 111, the session written at 1 persists at 111. -/
theorem c6_presence_ttl_witness :
    getCache ((step pairState ⟨"c1", Event.cursorUpdate 4 10, 50, "tok"⟩).1).store
        ("cursor:" ++ "u1" ++ ":" ++ "A") 111
      = (if 111 < 50 + 60 then some (StoreValue.cursorVal 4 10) else none) :=
  (c6_presence_ttl pairState "c1" "u1" "A" "tok" 4 10 50 111
    (by decide) (by decide) (by decide) (by decide)).1

/-- Trace in which the disconnect cleanup for `c1` runs twice. -/
def traceDoubleDisc : List Action :=
  [⟨"c1", Event.authenticate (some ⟨"u1", "p1"⟩), 1, "r"⟩,
   ⟨"c2", Event.authenticate (some ⟨"u2", "p1"⟩), 2, "r"⟩,
   ⟨"c1", Event.disconnect, 3, "r"⟩,
   ⟨"c1", Event.disconnect, 4, "r"⟩]

/-- C8 counterexample: running the disconnect cleanup twice for the same
connection delivers the `user_left` notification to the remaining member
twice, not exactly once — the handler has no idempotence guard (its
identity fields are never cleared). -/
theorem c8_counterexample_double_disconnect :
    ((run initState traceDoubleDisc).2.filter
        (fun d => d.event == "user_left" && d.rcpt == "c2")).length = 2 := by decide

/-- C8 amended: a single run of the disconnect cleanup of an authenticated
connection deletes the collaboration-session record and broadcasts exactly
one `user_left` `{userId, socketId, timestamp}` to each room member other
than the disconnecting connection; but the cleanup is not idempotent — a
second run emits the same notifications again (exactly-once holds only
because the transport fires `disconnect` once per connection). -/
theorem c8_amended_single_disconnect (st : ServerState) (sid u p rand rand2 : String)
    (now now2 t : Nat)
    (hu : (getSock st sid).userId = some u) (hu2 : u ≠ "")
    (hp : (getSock st sid).projectId = some p) (hp2 : p ≠ "") :
    getCache ((step st ⟨sid, Event.disconnect, now, rand⟩).1).store
        ("collaboration:" ++ u ++ ":" ++ p) t = none
    ∧ (step st ⟨sid, Event.disconnect, now, rand⟩).2
        = (exceptSelf (roomMembers st p) sid).map
            (fun x => ⟨x, "user_left", Target.roomExcept p sid, Payload.userLeft u sid now⟩)
    ∧ (step (step st ⟨sid, Event.disconnect, now, rand⟩).1
          ⟨sid, Event.disconnect, now2, rand2⟩).2
        = (exceptSelf (roomMembers st p) sid).map
            (fun x =>
              ⟨x, "user_left", Target.roomExcept p sid, Payload.userLeft u sid now2⟩) := by
  have hgen : ∀ (st' : ServerState) (n : Nat) (rd : String),
      (getSock st' sid).userId = some u → (getSock st' sid).projectId = some p →
      (step st' ⟨sid, Event.disconnect, n, rd⟩).2
        = (exceptSelf (roomMembers st' p) sid).map
            (fun x => ⟨x, "user_left", Target.roomExcept p sid, Payload.userLeft u sid n⟩) := by
    intro st' n rd hu' hp'
    have hg : (truthy (getSock st' sid).userId && truthy (getSock st' sid).projectId)
        = true := by
      rw [hu', hp', truthy_some u hu2, truthy_some p hp2]
      rfl
    unfold step handleEvent onDisconnect
    dsimp only
    rw [hg, if_pos rfl]
    simp [deliver, recipients, roomMembers, exceptSelf, cuDelete, hu', hp', List.map_map, Function.comp_def, List.map_id']
  have hg : (truthy (getSock st sid).userId && truthy (getSock st sid).projectId)
      = true := by
    rw [hu, hp, truthy_some u hu2, truthy_some p hp2]
    rfl
  have hstore : (step st ⟨sid, Event.disconnect, now, rand⟩).1.store
      = removeCollaborationSession st.store u p := by
    unfold step handleEvent onDisconnect
    dsimp only
    rw [hg, if_pos rfl]
    simp [cuDelete, hu, hp]
  have hrooms : (step st ⟨sid, Event.disconnect, now, rand⟩).1.rooms = st.rooms := by
    unfold step handleEvent onDisconnect
    dsimp only
    rw [hg, if_pos rfl]
    simp [cuDelete]
  have hsock : (step st ⟨sid, Event.disconnect, now, rand⟩).1.sockets = st.sockets := by
    unfold step handleEvent onDisconnect
    dsimp only
    rw [hg, if_pos rfl]
    simp [cuDelete]
  refine ⟨?_, ?_, ?_⟩
  · rw [hstore]
    unfold removeCollaborationSession
    exact getCache_deleteCache_self st.store _ t
  · exact hgen st now rand hu hp
  · rw [hgen (step st ⟨sid, Event.disconnect, now, rand⟩).1 now2 rand2
        (by unfold getSock; rw [hsock]; exact hu)
        (by unfold getSock; rw [hsock]; exact hp),
      roomMembers_eq_of_rooms _ _ _ hrooms]

/-- Witness for C8's amended theorem: a single disconnect of `c1` notifies
exactly the other member of the room. -/
theorem c8_amended_single_disconnect_witness :
    (step pairState ⟨"c1", Event.disconnect, 60, "r"⟩).2
      = (exceptSelf (roomMembers pairState "A") "c1").map
          (fun x =>
            ⟨x, "user_left", Target.roomExcept "A" "c1", Payload.userLeft "u1" "c1" 60⟩) :=
  (c8_amended_single_disconnect pairState "c1" "u1" "A" "r" "r2" 60 61 999
    (by decide) (by decide) (by decide) (by decide)).2.1

/-- Trace in which the same sender posts two chat messages in the same
millisecond and the random-token oracle repeats. -/
def traceChatCollide : List Action :=
  [⟨"c1", Event.authenticate (some ⟨"u1", "A"⟩), 1, "r"⟩,
   ⟨"c2", Event.authenticate (some ⟨"u2", "A"⟩), 2, "r"⟩,
   ⟨"c1", Event.chatMessage "hi" none, 100, "tok"⟩,
   ⟨"c1", Event.chatMessage "yo" none, 100, "tok"⟩]

/-- C3 counterexample: two distinct chat messages (different contents)
broadcast in the same room carry the same server-generated id
`msg_100_tok`, because `Date.now()` returned the same millisecond and
`Math.random().toString(36).substr(2, 9)` the same token — the claimed
per-room uniqueness (and with it monotone assignment) fails. -/
theorem c3_counterexample_id_collision :
    (run initState traceChatCollide).2.filterMap (fun d =>
        if d.rcpt == "c2" && d.event == "chat_message" then some d.payload else none)
      = [Payload.chatMsg "msg_100_tok" "u1" "A" "hi" "user" 100,
         Payload.chatMsg "msg_100_tok" "u1" "A" "yo" "user" 100] := by decide

/-- C3 amended: the server-generated chat id is `msg_<timestamp>_<token>`;
two ids are equal exactly when both the millisecond timestamp and the
random token coincide, so ids are distinct whenever the generation inputs
differ, but they can collide within one millisecond when the random tokens
coincide, and no monotone per-room ordering of ids is guaranteed. -/
theorem c3_amended_id_uniqueness (t1 t2 : Nat) (r1 r2 : String) :
    messageId t1 r1 = messageId t2 r2 ↔ (t1 = t2 ∧ r1 = r2) :=
  messageId_inj t1 t2 r1 r2

end Blueforge
